import Mathlib

/-!
Shallow embedding of the book-collection manager (`src/app.py`) and proofs
about its record store, persistence adapter and query/stats operations.

Conventions of the embedding:
* A well-formed book record (`class BookCollection`'s dicts as produced by
  `add_book`) is the structure `Book` with the six fields of the durable format.
* `update_book` operates on raw Python dicts, so for it records are modelled
  as association lists `PyDict` with Python `dict` semantics (`dictGet`,
  `dictSet`, `dictUpdate`); a `KeyError`/`AttributeError` on `book["title"].lower()`
  is modelled by `Option` (result `none`).
* The durable store is `FileState`: `absent` models `FileNotFoundError`,
  `malformed` models a `json.JSONDecodeError` (syntax-level failure), and
  `content j` holds the parsed JSON value; `json.dump`/`json.load` round-trip
  JSON-representable values, so the file is modelled by its parsed value.
* Mutators return an extra `Bool` recording whether `save_to_file` was called.
* Python `str.lower` is `pyLower` (lower-case the string, viewed as its
  character list, which determines the string); `a in b` on strings is `pyIn`
  (substring containment on character lists).
-/

namespace BookManager

/-- A well-formed book record: the six fields written by `add_book`. -/
structure Book where
  title : String
  author : String
  year : Int
  genre : String
  read : Bool
  date_added : String
deriving DecidableEq, Repr

/-! ### JSON values and the durable store (`read_from_file` / `save_to_file`) -/

/-- Parsed JSON values (the records here only use strings, integers and
booleans, so numbers are modelled by `Int`). -/
inductive Json where
  | null
  | bool (b : Bool)
  | num (n : Int)
  | str (s : String)
  | arr (elems : List Json)
  | obj (fields : List (String × Json))

/-- Serialization of one record, with the field order of the dict literal in
`add_book`. -/
def bookToJson (b : Book) : Json :=
  Json.obj [("title", Json.str b.title), ("author", Json.str b.author),
            ("year", Json.num b.year), ("genre", Json.str b.genre),
            ("read", Json.bool b.read), ("date_added", Json.str b.date_added)]

/-- Recover a well-formed record from its JSON form. -/
def bookOfJson : Json → Option Book
  | Json.obj [("title", Json.str t), ("author", Json.str a),
              ("year", Json.num y), ("genre", Json.str g),
              ("read", Json.bool r), ("date_added", Json.str d)] =>
    some ⟨t, a, y, g, r, d⟩
  | _ => none

/-- Recover a list of well-formed records from a list of JSON values. -/
def booksOfJsonList : List Json → Option (List Book)
  | [] => some []
  | j :: rest =>
    match bookOfJson j, booksOfJsonList rest with
    | some b, some bs => some (b :: bs)
    | _, _ => none

/-- Recover the collection from a parsed store content: it must be a JSON
array of well-formed record objects. -/
def booksOfJson : Json → Option (List Book)
  | Json.arr elems => booksOfJsonList elems
  | _ => none

/-- State of the durable store `books.json` as seen by `json.load`. -/
inductive FileState where
  | absent
  | malformed
  | content (j : Json)

/-- `BookCollection.read_from_file`: `json.load` under
`try/except (FileNotFoundError, json.JSONDecodeError)`; on either exception
`books_list` becomes `[]`, otherwise it is whatever value was parsed. -/
def read_from_file : FileState → Json
  | FileState.absent => Json.arr []
  | FileState.malformed => Json.arr []
  | FileState.content j => j

/-- `BookCollection.save_to_file`: `json.dump` of the full collection
overwrites the store with the serialized array. -/
def save_to_file (books : List Book) : FileState :=
  FileState.content (Json.arr (books.map bookToJson))

/-! ### Record store mutators on well-formed collections -/

/-- Python `s.lower()`, as the character list of the result (a string is
determined by its character list, and all comparisons of lowered strings in
the source are equality or containment tests). -/
def pyLower (s : String) : List Char := s.data.map Char.toLower

/-- `BookCollection.add_book`: append the new record, then save. The second
component records that `save_to_file` was called. -/
def add_book (books : List Book) (title author : String) (year : Int)
    (genre : String) (read : Bool) (today : String) : List Book × Bool :=
  (books ++ [⟨title, author, year, genre, read, today⟩], true)

/-- The `Add Book` form handler: `if title and author:` (both truthy, i.e.
non-empty) calls `add_book`, else shows the validation error. Result:
(collection, whether `save_to_file` ran, whether the validation error was
shown). -/
def add_book_form (books : List Book) (title author : String) (year : Int)
    (genre : String) (read : Bool) (today : String) : List Book × Bool × Bool :=
  if title ≠ "" ∧ author ≠ "" then
    ((add_book books title author year genre read today).1,
     (add_book books title author year genre read today).2, false)
  else
    (books, false, true)

/-- `BookCollection.delete_book`: keep exactly the records whose lowered title
differs from the lowered argument, then save unconditionally. The second
component records that `save_to_file` was called. -/
def delete_book (books : List Book) (title : String) : List Book × Bool :=
  (books.filter (fun book => pyLower book.title != pyLower title), true)

/-- `BookCollection.get_reading_stats`: total, completed (`sum(1 for ...)`) and
the completion rate with the `total_books > 0` guard. The float arithmetic of
the source is modelled exactly over `Rat`. -/
def get_reading_stats (books : List Book) : Nat × Nat × Rat :=
  let total_books := books.length
  let completed_books := books.countP (fun book => book.read)
  let completion_rate : Rat :=
    if total_books > 0 then (completed_books : Rat) / (total_books : Rat) * 100 else 0
  (total_books, completed_books, completion_rate)

/-! ### Python dicts and `update_book` -/

/-- A Python value stored in a record dict (the fields here are strings,
integers and booleans). -/
inductive PyVal where
  | str (s : String)
  | int (n : Int)
  | bool (b : Bool)
deriving DecidableEq, Repr

/-- A Python dict in insertion order. -/
abbrev PyDict := List (String × PyVal)

/-- `d[k]` as an `Option`: first binding of the key. -/
def dictGet : PyDict → String → Option PyVal
  | [], _ => none
  | (k', v) :: rest, k => if k' = k then some v else dictGet rest k

/-- `d[k] = v`: overwrite in place if the key exists, else append (Python
dicts keep the original position of an updated key). -/
def dictSet : PyDict → String → PyVal → PyDict
  | [], k, v => [(k, v)]
  | (k', v') :: rest, k, v =>
    if k' = k then (k', v) :: rest else (k', v') :: dictSet rest k v

/-- `book.update(new_data)`: fold `dictSet` over the supplied pairs. -/
def dictUpdate (d new_data : PyDict) : PyDict :=
  new_data.foldl (fun acc kv => dictSet acc kv.1 kv.2) d

/-- `BookCollection.update_book`: scan for the first record whose
`book["title"].lower()` equals `title.lower()`; merge `new_data` into it, save
and return `True`; if the scan ends, return `False` with no save. A record
without a string `"title"` makes the scan raise (`none`). Result:
(collection, returned boolean, whether `save_to_file` ran). -/
def update_book : List PyDict → String → PyDict → Option (List PyDict × Bool × Bool)
  | [], _, _ => some ([], false, false)
  | book :: rest, title, new_data =>
    match dictGet book "title" with
    | some (PyVal.str s) =>
      if pyLower s = pyLower title then
        some (dictUpdate book new_data :: rest, true, true)
      else
        match update_book rest title new_data with
        | some r => some (book :: r.1, r.2.1, r.2.2)
        | none => none
    | _ => none

/-! ### Search (`View Collection` filter and the `Search Books` handler) -/

/-- `a.isPrefixOf b` on characters, written out. -/
def listLeads : List Char → List Char → Bool
  | [], _ => true
  | _ :: _, [] => false
  | a :: as, b :: bs => a == b && listLeads as bs

/-- Python `needle in haystack` on strings: `needle` occurs contiguously in
`haystack` (the empty needle always matches). -/
def pyIn : List Char → List Char → Bool
  | n, [] => n.isEmpty
  | n, c :: rest => listLeads n (c :: rest) || pyIn n rest

/-- The scope of the `Search Books` page (`st.radio("Search by", ...)`). -/
inductive SearchType where
  | byTitle
  | byAuthor
deriving DecidableEq

/-- The match test of the `Search Books` loop for one record. -/
def searchPred (st : SearchType) (term : String) (b : Book) : Bool :=
  match st with
  | SearchType.byTitle => pyIn (pyLower term) (pyLower b.title)
  | SearchType.byAuthor => pyIn (pyLower term) (pyLower b.author)

/-- The `Search Books` handler: under `if search_term:` (skipped for the empty
string) collect the records matching the chosen field. -/
def search_books (books : List Book) (st : SearchType) (term : String) : List Book :=
  if term = "" then [] else books.filter (searchPred st term)

/-- The `View Collection` display filter: term matches title or author
(case-insensitive substring) and the genre choice matches (with the `"All"`
pass-through). -/
def view_filter (books : List Book) (term : String) (genre_choice : String) : List Book :=
  books.filter (fun b =>
    (pyIn (pyLower term) (pyLower b.title) ||
     pyIn (pyLower term) (pyLower b.author)) &&
    (genre_choice == "All" || b.genre == genre_choice))

/-! ### Concrete records used in witnesses and counterexamples -/

def duneBook : Book := ⟨"Dune Messiah", "Herbert", 1969, "Science Fiction", true, "2024-01-01"⟩

def foundationBook : Book := ⟨"Foundation", "Asimov", 1951, "Science Fiction", false, "2024-01-02"⟩

def emmaBook : Book := ⟨"Emma", "Austen", 1815, "Romance", false, "2024-01-03"⟩

def statsBooks : List Book := [duneBook, foundationBook, emmaBook]

/-! ### C1: empty title or author on add -/

/-- C1: submitting the add form with an empty title or empty author surfaces
the validation error and performs no mutation and no save. -/
theorem add_book_form_empty_is_rejected (books : List Book) (title author : String)
    (year : Int) (genre : String) (read : Bool) (today : String)
    (h : title = "" ∨ author = "") :
    add_book_form books title author year genre read today = (books, false, true) := by
  have hcond : ¬(title ≠ "" ∧ author ≠ "") := by
    rcases h with h | h <;> simp [h]
  simp [add_book_form, hcond]

theorem add_book_form_empty_is_rejected_witness :
    add_book_form [] "" "Asimov" 1951 "Fiction" false "2024-01-02" = ([], false, true) :=
  add_book_form_empty_is_rejected [] "" "Asimov" 1951 "Fiction" false "2024-01-02" (Or.inl rfl)

/-! ### C2: delete with zero matches -/

/-- C2 counterexample: deleting a title with zero case-insensitive matches
leaves the collection unchanged but still calls `save_to_file` (the claim says
no save call occurs). -/
theorem delete_book_zero_match_still_saves :
    pyLower "Foundation" ≠ pyLower "dune" ∧
    (delete_book [foundationBook] "dune").1 = [foundationBook] ∧
    (delete_book [foundationBook] "dune").2 = true := by
  refine ⟨by decide, by decide, rfl⟩

/-- C2 amended: a zero-match delete leaves the in-memory collection unchanged
and rewrites the durable store with identical content, but `save_to_file` is
called unconditionally rather than only when a record was removed. -/
theorem delete_book_zero_match_redundant_save (books : List Book) (title : String)
    (h : ∀ b ∈ books, pyLower b.title ≠ pyLower title) :
    (delete_book books title).1 = books ∧ (delete_book books title).2 = true ∧
    save_to_file (delete_book books title).1 = save_to_file books := by
  have h1 : (delete_book books title).1 = books := by
    apply List.filter_eq_self.mpr
    intro b hb
    simpa [bne_iff_ne] using h b hb
  exact ⟨h1, rfl, by rw [h1]⟩

theorem delete_book_zero_match_redundant_save_witness :
    (delete_book [foundationBook] "dune").1 = [foundationBook] ∧
    (delete_book [foundationBook] "dune").2 = true ∧
    save_to_file (delete_book [foundationBook] "dune").1 = save_to_file [foundationBook] :=
  delete_book_zero_match_redundant_save [foundationBook] "dune" (by decide)

/-! ### C5: delete removes exactly the case-insensitive matches -/

/-- C5: delete removes exactly the records whose lowered title equals the
lowered argument; every other record survives, in its original relative order
(the result is a sublist of the input), unchanged. -/
theorem delete_book_removes_exactly_matches (books : List Book) (title : String) :
    List.Sublist (delete_book books title).1 books ∧
    ∀ b, b ∈ (delete_book books title).1 ↔ b ∈ books ∧ pyLower b.title ≠ pyLower title := by
  refine ⟨List.filter_sublist _, fun b => ?_⟩
  simp [delete_book, List.mem_filter, bne_iff_ne]

/-! ### C7: reading statistics -/

/-- C7: stats returns the collection size, the count of read records, and the
completion rate `completed / total * 100` guarded to `0` when the collection
is empty. -/
theorem get_reading_stats_correct (books : List Book) :
    (get_reading_stats books).1 = books.length ∧
    (get_reading_stats books).2.1 = (books.filter (fun b => b.read)).length ∧
    (books.length ≠ 0 →
      (get_reading_stats books).2.2 =
        ((books.filter (fun b => b.read)).length : Rat) / (books.length : Rat) * 100) ∧
    (books.length = 0 → (get_reading_stats books).2.2 = 0) := by
  refine ⟨rfl, ?_, ?_, ?_⟩
  · simp [get_reading_stats, List.countP_eq_length_filter]
  · intro h
    have hpos : 0 < books.length := Nat.pos_of_ne_zero h
    simp [get_reading_stats, hpos, List.countP_eq_length_filter]
  · intro h
    simp [get_reading_stats, h]

theorem get_reading_stats_correct_witness :
    (get_reading_stats statsBooks).2.2 = 100 / 3 := by
  have h := (get_reading_stats_correct statsBooks).2.2.1 (by decide)
  have e1 : (statsBooks.filter (fun b => b.read)).length = 1 := rfl
  have e2 : statsBooks.length = 3 := rfl
  rw [h, e1, e2]
  norm_num

/-! ### C8: save/load round trip -/

theorem bookOfJson_bookToJson (b : Book) : bookOfJson (bookToJson b) = some b := rfl

/-- C8: saving a collection of well-formed records and loading the store back
reproduces an equal sequence of records. -/
theorem save_then_load_roundtrip (books : List Book) :
    booksOfJson (read_from_file (save_to_file books)) = some books := by
  show booksOfJsonList (books.map bookToJson) = some books
  induction books with
  | nil => rfl
  | cons b rest ih =>
    simp only [List.map_cons, booksOfJsonList, bookOfJson_bookToJson, ih]

/-! ### C4: load recovery -/

/-- C4 counterexample: a store whose content parses as JSON but not as a
sequence of record objects is returned as-is by load, not replaced by the
empty sequence. -/
theorem read_from_file_bad_structure_not_recovered :
    booksOfJson (Json.str "junk") = none ∧
    read_from_file (FileState.content (Json.str "junk")) ≠ Json.arr [] :=
  ⟨rfl, fun h => Json.noConfusion h⟩

/-- C4 amended: load yields the empty sequence exactly when the file is absent
or its content fails to parse as JSON at the syntax level; successfully parsed
content is returned unchanged whatever its structure. -/
theorem read_from_file_recovery (j : Json) :
    read_from_file FileState.absent = Json.arr [] ∧
    read_from_file FileState.malformed = Json.arr [] ∧
    read_from_file (FileState.content j) = j :=
  ⟨rfl, rfl, rfl⟩

/-! ### Dict lemmas for `update_book` -/

theorem dictGet_dictSet_self (d : PyDict) (k : String) (v : PyVal) :
    dictGet (dictSet d k v) k = some v := by
  induction d with
  | nil => simp [dictSet, dictGet]
  | cons kv rest ih =>
    obtain ⟨k0, v0⟩ := kv
    by_cases h : k0 = k
    · simp [dictSet, dictGet, h]
    · simp [dictSet, dictGet, h, ih]

theorem dictGet_dictSet_ne (d : PyDict) (k k' : String) (v : PyVal) (h : k ≠ k') :
    dictGet (dictSet d k v) k' = dictGet d k' := by
  induction d with
  | nil => simp [dictSet, dictGet, h]
  | cons kv rest ih =>
    obtain ⟨k0, v0⟩ := kv
    by_cases h0 : k0 = k
    · subst h0
      simp [dictSet, dictGet, h]
    · by_cases h1 : k0 = k' <;> simp [dictSet, dictGet, h0, h1, Ne.symm h, ih]

theorem dictGet_eq_none_of_key_absent (d : PyDict) (k : String)
    (h : k ∉ d.map Prod.fst) : dictGet d k = none := by
  induction d with
  | nil => rfl
  | cons kv rest ih =>
    obtain ⟨k0, v0⟩ := kv
    simp only [List.map_cons, List.mem_cons, not_or] at h
    have : k0 ≠ k := fun e => h.1 e.symm
    simp [dictGet, this, ih h.2]

theorem dictUpdate_cons (d : PyDict) (k : String) (v : PyVal) (nd : PyDict) :
    dictUpdate d ((k, v) :: nd) = dictUpdate (dictSet d k v) nd := rfl

/-- A key not supplied in `new_data` keeps its binding through the merge. -/
theorem dictGet_dictUpdate_of_none (d nd : PyDict) (k : String)
    (hv : dictGet nd k = none) :
    dictGet (dictUpdate d nd) k = dictGet d k := by
  induction nd generalizing d with
  | nil => rfl
  | cons kv rest ih =>
    obtain ⟨k0, v0⟩ := kv
    by_cases h0 : k0 = k
    · subst h0
      simp [dictGet] at hv
    · simp only [dictGet, h0, if_false] at hv
      rw [dictUpdate_cons, ih _ hv, dictGet_dictSet_ne _ _ _ _ h0]

/-- A key supplied in `new_data` (keys of a Python dict are distinct) ends up
bound to the supplied value after the merge. -/
theorem dictGet_dictUpdate_of_some (d nd : PyDict) (k : String) (v : PyVal)
    (hnd : (nd.map Prod.fst).Nodup) (hv : dictGet nd k = some v) :
    dictGet (dictUpdate d nd) k = some v := by
  induction nd generalizing d with
  | nil => simp [dictGet] at hv
  | cons kv rest ih =>
    obtain ⟨k0, v0⟩ := kv
    have hk0 : k0 ∉ rest.map Prod.fst := (List.nodup_cons.mp hnd).1
    have hrest : (rest.map Prod.fst).Nodup := (List.nodup_cons.mp hnd).2
    by_cases h0 : k0 = k
    · subst h0
      have hv' : v0 = v := by simpa [dictGet] using hv
      subst hv'
      rw [dictUpdate_cons,
        dictGet_dictUpdate_of_none _ _ _ (dictGet_eq_none_of_key_absent _ _ hk0),
        dictGet_dictSet_self]
    · simp only [dictGet, h0, if_false] at hv
      rw [dictUpdate_cons]
      exact ih _ hrest hv

/-- Scanning past non-matching well-titled records, `update_book` merges
`new_data` into the first match, saves and returns `True`. -/
theorem update_book_first_match (pre post : List PyDict) (b nd : PyDict) (title : String)
    (hpre : ∀ x ∈ pre, ∃ s, dictGet x "title" = some (PyVal.str s) ∧ pyLower s ≠ pyLower title)
    (hb : ∃ s, dictGet b "title" = some (PyVal.str s) ∧ pyLower s = pyLower title) :
    update_book (pre ++ b :: post) title nd = some (pre ++ dictUpdate b nd :: post, true, true) := by
  induction pre with
  | nil =>
    obtain ⟨s, hs, hls⟩ := hb
    simp [update_book, hs, hls]
  | cons x rest ih =>
    obtain ⟨s, hs, hls⟩ := hpre x (List.mem_cons_self _ _)
    have ihh := ih (fun y hy => hpre y (List.mem_cons_of_mem _ hy))
    simp [update_book, hs, hls, ihh]

/-! ### C3: update merges into the first match -/

def duneDict : PyDict :=
  [("title", PyVal.str "Dune"), ("author", PyVal.str "Herbert"),
   ("year", PyVal.int 1965), ("genre", PyVal.str "Science Fiction"),
   ("read", PyVal.bool false), ("date_added", PyVal.str "2020-01-01")]

def readChange : PyDict := [("read", PyVal.bool true)]

/-- C3 counterexample: a `date_added` supplied among the update fields is
overwritten into the record (the claim says `dateAdded` is never overwritten
even if supplied). -/
theorem update_book_overwrites_date_added :
    update_book [duneDict] "dune" [("date_added", PyVal.str "2099-12-31")] =
      some ([[("title", PyVal.str "Dune"), ("author", PyVal.str "Herbert"),
              ("year", PyVal.int 1965), ("genre", PyVal.str "Science Fiction"),
              ("read", PyVal.bool false), ("date_added", PyVal.str "2099-12-31")]],
            true, true) := by
  decide

/-- C3 amended: update merges the supplied fields into the first
case-insensitive match only (records before and after it are returned
unchanged), persists and returns `true`; fields not supplied are untouched —
`date_added` included — but a supplied `date_added` is overwritten like any
other field. -/
theorem update_book_merges_first_match (pre post : List PyDict) (b nd : PyDict) (title : String)
    (hpre : ∀ x ∈ pre, ∃ s, dictGet x "title" = some (PyVal.str s) ∧ pyLower s ≠ pyLower title)
    (hb : ∃ s, dictGet b "title" = some (PyVal.str s) ∧ pyLower s = pyLower title) :
    update_book (pre ++ b :: post) title nd = some (pre ++ dictUpdate b nd :: post, true, true) ∧
    ∀ k, dictGet nd k = none → dictGet (dictUpdate b nd) k = dictGet b k :=
  ⟨update_book_first_match pre post b nd title hpre hb,
   fun k hk => dictGet_dictUpdate_of_none b nd k hk⟩

theorem update_book_merges_first_match_witness :
    update_book [duneDict] "dune" readChange =
      some ([dictUpdate duneDict readChange], true, true) :=
  (update_book_merges_first_match [] [] duneDict readChange "dune"
    (by simp) ⟨"Dune", by decide, by decide⟩).1

/-! ### C6: update with no match -/

/-- C6: when no record's title matches case-insensitively, update returns
`False`, mutates nothing and never calls save. -/
theorem update_book_no_match (books : List PyDict) (title : String) (nd : PyDict)
    (h : ∀ x ∈ books, ∃ s, dictGet x "title" = some (PyVal.str s) ∧ pyLower s ≠ pyLower title) :
    update_book books title nd = some (books, false, false) := by
  induction books with
  | nil => rfl
  | cons x rest ih =>
    obtain ⟨s, hs, hls⟩ := h x (List.mem_cons_self _ _)
    have ihh := ih (fun y hy => h y (List.mem_cons_of_mem _ hy))
    simp [update_book, hs, hls, ihh]

theorem update_book_no_match_witness :
    update_book [duneDict] "Foundation" readChange = some ([duneDict], false, false) :=
  update_book_no_match [duneDict] "Foundation" readChange
    (fun x hx => by
      have hx' : x = duneDict := by simpa using hx
      subst hx'
      exact ⟨"Dune", by decide, by decide⟩)

/-! ### C10: update copies every supplied key, schema or not -/

def ratingChange : PyDict := [("rating", PyVal.int 5)]

/-- C10: every key-value pair of the supplied mapping — including keys outside
the six-field record schema — is copied verbatim into the first matching
record; new keys become new fields. -/
theorem update_book_copies_all_supplied_keys (pre post : List PyDict) (b nd : PyDict)
    (title : String)
    (hpre : ∀ x ∈ pre, ∃ s, dictGet x "title" = some (PyVal.str s) ∧ pyLower s ≠ pyLower title)
    (hb : ∃ s, dictGet b "title" = some (PyVal.str s) ∧ pyLower s = pyLower title)
    (hnd : (nd.map Prod.fst).Nodup) :
    (update_book (pre ++ b :: post) title nd).map (fun r => r.1) =
      some (pre ++ dictUpdate b nd :: post) ∧
    ∀ k v, dictGet nd k = some v → dictGet (dictUpdate b nd) k = some v := by
  refine ⟨?_, fun k v hv => dictGet_dictUpdate_of_some b nd k v hnd hv⟩
  rw [update_book_first_match pre post b nd title hpre hb]
  rfl

theorem update_book_copies_all_supplied_keys_witness :
    dictGet (dictUpdate duneDict ratingChange) "rating" = some (PyVal.int 5) :=
  (update_book_copies_all_supplied_keys [] [] duneDict ratingChange "dune"
    (by simp) ⟨"Dune", by decide, by decide⟩ (by decide)).2
    "rating" (PyVal.int 5) (by decide)

/-! ### C9: search -/

theorem pyIn_nil (h : List Char) : pyIn [] h = true := by
  cases h with
  | nil => rfl
  | cons c rest => simp [pyIn, listLeads]

/-- C9 counterexample: with scope title and a non-empty collection, the empty
search term yields no results (the handler skips the search entirely) instead
of matching every record. -/
theorem search_books_empty_term_skips :
    search_books [duneBook] SearchType.byTitle "" = [] ∧
    search_books [duneBook] SearchType.byTitle "" ≠ [duneBook] := by
  refine ⟨rfl, by decide⟩

/-- C9 amended: for a non-empty term, search in the title or author scope
returns exactly the records whose field contains the term case-insensitively,
in store order; in those scopes the empty term returns no records (the handler
skips the search); the both scope (the View Collection filter with genre
`"All"`) matches on title or author and its empty term matches every
record. -/
theorem search_matches_exactly (books : List Book) (st : SearchType) (term : String) :
    (term ≠ "" →
      List.Sublist (search_books books st term) books ∧
      ∀ b, b ∈ search_books books st term ↔ b ∈ books ∧ searchPred st term b = true) ∧
    search_books books st "" = [] ∧
    view_filter books "" "All" = books ∧
    List.Sublist (view_filter books term "All") books ∧
    (∀ b, b ∈ view_filter books term "All" ↔
      b ∈ books ∧ (pyIn (pyLower term) (pyLower b.title) ||
                   pyIn (pyLower term) (pyLower b.author)) = true) := by
  have hempty : pyLower "" = [] := rfl
  refine ⟨fun hterm => ⟨?_, fun b => ?_⟩, rfl, ?_, List.filter_sublist _, fun b => ?_⟩
  · simp only [search_books, hterm, if_false]
    exact List.filter_sublist _
  · simp [search_books, hterm, List.mem_filter]
  · apply List.filter_eq_self.mpr
    intro b _
    simp [hempty, pyIn_nil]
  · simp [view_filter, List.mem_filter]

theorem search_matches_exactly_witness :
    duneBook ∈ search_books [duneBook, foundationBook] SearchType.byTitle "dune" ∧
    foundationBook ∉ search_books [duneBook, foundationBook] SearchType.byTitle "dune" := by
  have h := (search_matches_exactly [duneBook, foundationBook] SearchType.byTitle "dune").1
    (by decide)
  refine ⟨(h.2 duneBook).mpr ⟨by simp, by decide⟩, fun hmem => ?_⟩
  exact absurd ((h.2 foundationBook).mp hmem).2 (by decide)

end BookManager
